import Mathlib

/-!
Shallow embedding of the GPU hardware-register core of the citra emulator
(source file: src/core/hw/gpu.cpp).

The source unit implements five responsibilities over one global state:
a memory-mapped register file (template Read/Write), a memory-fill engine, a
display-transfer engine, command dispatch, and a scanline/frame timing state
machine (Update/Init).  All of them are embedded below as pure functions over
an explicit `GPUState`.

Machine integers are modelled as `Nat` with explicit reduction modulo `2^32`
or `2^64` wherever the C++ code relies on fixed-width behaviour.  Guest memory
is a byte-addressed total function; the address-translation collaborator
(Memory::GetPointer together with Memory::PhysicalToVirtualAddress, external
to this unit) is modelled as the identity on physical addresses.

The register layout header (core/hw/gpu.h) is not part of the source unit.
The two memory-fill value indices 0x7 and 0xB are taken from the
GPU_REG_INDEX_WORKAROUND arguments appearing in gpu.cpp itself; every other
layout constant is modelled from the specification and is marked as such.
-/

namespace GPUModel

/-- Byte-addressed guest memory: a total map from physical addresses to byte
values. -/
abbrev Mem := Nat → Nat

/-- Store one byte at address `a`. -/
def writeByte (m : Mem) (a v : Nat) : Mem := fun b => if b = a then v else m b

/-- Store the 32-bit word `w` at byte address `a` in the host's little-endian
byte order (the source performs a plain u32 store through a host pointer). -/
def mem32Write (m : Mem) (a w : Nat) : Mem :=
  writeByte (writeByte (writeByte (writeByte m a (w % 256))
    (a + 1) (w / 256 % 256)) (a + 2) (w / 65536 % 256)) (a + 3) (w / 16777216 % 256)

/-- Read the 32-bit word stored at byte address `a`, little-endian. -/
def mem32Read (m : Mem) (a : Nat) : Nat :=
  m a + 256 * m (a + 1) + 65536 * m (a + 2) + 16777216 * m (a + 3)

/-- Byte `o % 4` of the 32-bit word `w` (little-endian order). -/
def bytePart (w o : Nat) : Nat :=
  if o % 4 = 0 then w % 256
  else if o % 4 = 1 then w / 256 % 256
  else if o % 4 = 2 then w / 65536 % 256
  else w / 16777216 % 256

/-- The bswap32 routine used by the fill loop: reverses the four bytes of a
32-bit value. -/
def bswap32 (w : Nat) : Nat :=
  (w % 256) * 16777216 + (w / 256 % 256) * 65536 + (w / 65536 % 256) * 256
    + (w / 16777216 % 256)

/-- Wrapping 64-bit subtraction, as performed on the u64 tick counters. -/
def sub64 (a b : Nat) : Nat := (a + 18446744073709551616 - b) % 18446744073709551616

/-- The whole mutable state of the unit: the register words (`g_regs`), guest
memory reachable through address translation, and the timing globals
(`g_cur_line`, `g_last_line_ticks`, `g_last_frame_ticks`, `kFrameCycles`,
`kFrameTicks`). -/
structure GPUState where
  regs : Nat → Nat
  mem : Mem
  curLine : Nat
  lastLineTicks : Nat
  lastFrameTicks : Nat
  kFrameCycles : Nat
  kFrameTicks : Nat

/-- Store a 32-bit word into register `i`. -/
def setReg (s : GPUState) (i v : Nat) : GPUState :=
  { s with regs := fun j => if j = i then v else s.regs j }

/-- Base physical address of the register block (0x1EF00000 in the source). -/
def regBase : Nat := 0x1EF00000

/-- Modelled from the spec: the register count Regs::NumIds() is declared in
the missing header core/hw/gpu.h; the spec only states that it is a fixed
compile-time count covering the whole block.  The value 1024 (a 0x1000-byte
register block) is used here. -/
def numIds : Nat := 1024

/-- Index of the memory-fill start-address register of unit 0 resp. 1.  The
value registers 0x4+0x3 and 0x8+0x3 appear in the source's
GPU_REG_INDEX_WORKAROUND arguments; the start register is the first word of
each four-word fill config (start, end, size, value). -/
def fillStartIdx (second : Bool) : Nat := if second then 8 else 4

/-- Index of the memory-fill end-address register of unit 0 resp. 1. -/
def fillEndIdx (second : Bool) : Nat := if second then 9 else 5

/-- Index of the memory-fill value (trigger) register of unit 0 resp. 1, from
the source's workaround macro arguments 0x00004+0x3 and 0x00008+0x3. -/
def fillValueIdx (second : Bool) : Nat := if second then 11 else 7

/-- Modelled from the spec: the framebuffer-config registers of the primary
(top) display live in the missing header; fields in order are the four stereo
buffer addresses, then width, height, stride, color format and the
active-buffer selector. -/
def fbTopBase : Nat := 0x118

/-- Register index of the primary framebuffer height, read by the timing
machine. -/
def fbTopHeightIdx : Nat := fbTopBase + 5

/-- Modelled from the spec: base index of the secondary (sub) framebuffer
config, same field order as the primary one. -/
def fbSubBase : Nat := 0x128

/-- Modelled from the spec: the display-transfer config registers live in the
missing header; fields in order are input address, output address, input
width, input height, output width, output height, input format, output
format, trigger. -/
def dtBase : Nat := 0x300

def dtInAddrIdx : Nat := dtBase
def dtOutAddrIdx : Nat := dtBase + 1
def dtInWidthIdx : Nat := dtBase + 2
def dtInHeightIdx : Nat := dtBase + 3
def dtOutWidthIdx : Nat := dtBase + 4
def dtOutHeightIdx : Nat := dtBase + 5
def dtInFmtIdx : Nat := dtBase + 6
def dtOutFmtIdx : Nat := dtBase + 7
def dtTriggerIdx : Nat := dtBase + 8

/-- Modelled from the spec: the command-processor config registers (buffer
address, size, trigger) live in the missing header. -/
def cpBase : Nat := 0x380

def cpAddrIdx : Nat := cpBase
def cpSizeIdx : Nat := cpBase + 1
def cpTriggerIdx : Nat := cpBase + 2

/-- Modelled from the spec: pixel-format code of RGBA8 (the only decoded
input format). -/
def pfRGBA8 : Nat := 0

/-- Modelled from the spec: pixel-format code of RGB8 (the only implemented
output format, and the format installed by Init). -/
def pfRGB8 : Nat := 1

/-- Effective register-block byte offset of a raw physical address:
the u32 subtraction addr = raw_addr - 0x1EF00000 of the source. -/
def effAddr (raw : Nat) : Nat := (raw + 4294967296 - regBase) % 4294967296

/-- Register index computed by Read and Write: (raw - base) / 4 in u32
arithmetic. -/
def effIndex (raw : Nat) : Nat := effAddr raw / 4

/-- Result of a register read: the value handed back through the reference
parameter (none when the access was rejected and the variable is left
unassigned), and how many error-log events the call emitted. -/
structure RRes where
  value : Option Nat
  errLogs : Nat
  deriving DecidableEq

/-- The Read template of the source: reject out-of-range indices and any
width other than 32 bits (logging once), otherwise hand back the stored
word. -/
def Read (s : GPUState) (raw width : Nat) : RRes :=
  if numIds ≤ effIndex raw ∨ width ≠ 32 then { value := none, errLogs := 1 }
  else { value := some (s.regs (effIndex raw)), errLogs := 0 }

/-- Observable side effects of one Write call: error-log count for rejected
accesses, which side-effect handler fired, and the per-pixel
unsupported-format log counts of a display transfer. -/
structure WEvents where
  errLogs : Nat
  fill0 : Bool
  fill1 : Bool
  transfer : Bool
  command : Bool
  srcFmtErrs : Nat
  dstFmtErrs : Nat
  deriving DecidableEq

/-- No observable side effect. -/
def noEvents : WEvents :=
  { errLogs := 0, fill0 := false, fill1 := false, transfer := false,
    command := false, srcFmtErrs := 0, dstFmtErrs := 0 }

/-- Store `n` consecutive 32-bit words, all equal to `w`, starting at byte
address `a`: the pointer loop of the memory-fill handler. -/
def fillWords (w : Nat) : Nat → Mem → Nat → Mem
  | 0, m, _ => m
  | n + 1, m, a => fillWords w n (mem32Write m a w) (a + 4)

/-- The memory-fill handler: when the configured start address is non-zero,
store the byte-swapped fill value over every word from the start address
(inclusive) to the end address (exclusive); the boolean reports whether the
fill fired.  The word count reproduces the u32-pointer loop
`for (ptr = start; ptr < end; ++ptr)`. -/
def runFill (s : GPUState) (second : Bool) : GPUState × Bool :=
  let start := s.regs (fillStartIdx second)
  let stop := s.regs (fillEndIdx second)
  let v := s.regs (fillValueIdx second)
  if start ≠ 0 then
    ({ s with mem := fillWords (bswap32 v) ((stop - start + 3) / 4) s.mem start }, true)
  else (s, false)

/-- Operand block of one display transfer, read out of the registers when the
trigger fires. -/
structure TConf where
  srcA : Nat
  dstA : Nat
  iw : Nat
  ih : Nat
  ow : Nat
  oh : Nat
  infmt : Nat
  outfmt : Nat

/-- Accumulator of the transfer loops: current memory plus the per-pixel
unsupported-format log counters for the input and the output switch. -/
structure TAcc where
  mem : Mem
  srcErrs : Nat
  dstErrs : Nat

/-- Body of the innermost transfer loop for pixel (x, y): decode the source
pixel (only RGBA8 is implemented, byte0/1/2/3 to the r/g/b/a slots; any other
input format logs and leaves the color all zero), then store it (only RGB8 is
implemented, the r/g/b slots to destination bytes 0/1/2; any other output
format logs and leaves the destination untouched). -/
def transferPixel (c : TConf) (x y : Nat) (acc : TAcc) : TAcc :=
  let sp := c.srcA + x * 4 + y * c.iw * 4
  let r := if c.infmt = pfRGBA8 then acc.mem sp else 0
  let g := if c.infmt = pfRGBA8 then acc.mem (sp + 1) else 0
  let bl := if c.infmt = pfRGBA8 then acc.mem (sp + 2) else 0
  let al := if c.infmt = pfRGBA8 then acc.mem (sp + 3) else 0
  let se := if c.infmt = pfRGBA8 then acc.srcErrs else acc.srcErrs + 1
  let _unusedAlpha := al
  if c.outfmt = pfRGB8 then
    let dp := c.dstA + x * 3 + y * c.ow * 3
    { mem := writeByte (writeByte (writeByte acc.mem dp r) (dp + 1) g) (dp + 2) bl,
      srcErrs := se, dstErrs := acc.dstErrs }
  else
    { mem := acc.mem, srcErrs := se, dstErrs := acc.dstErrs + 1 }

/-- Inner loop over columns x = 0, ..., n-1 of row y. -/
def transferCols (c : TConf) (y : Nat) : Nat → TAcc → TAcc
  | 0, acc => acc
  | n + 1, acc => transferPixel c n y (transferCols c y n acc)

/-- Outer loop over rows y = 0, ..., n-1, each row running the full column
loop up to the configured output width. -/
def transferRows (c : TConf) : Nat → TAcc → TAcc
  | 0, acc => acc
  | n + 1, acc => transferCols c n c.ow (transferRows c n acc)

/-- Read the display-transfer operands out of the registers. -/
def dtConf (s : GPUState) : TConf :=
  { srcA := s.regs dtInAddrIdx, dstA := s.regs dtOutAddrIdx,
    iw := s.regs dtInWidthIdx, ih := s.regs dtInHeightIdx,
    ow := s.regs dtOutWidthIdx, oh := s.regs dtOutHeightIdx,
    infmt := s.regs dtInFmtIdx, outfmt := s.regs dtOutFmtIdx }

/-- The display-transfer handler: run the row/column loops over the output
rectangle, returning the new state and the two unsupported-format log
counts. -/
def runTransfer (s : GPUState) : GPUState × Nat × Nat :=
  let c := dtConf s
  let acc := transferRows c c.oh { mem := s.mem, srcErrs := 0, dstErrs := 0 }
  ({ s with mem := acc.mem }, acc.srcErrs, acc.dstErrs)

/-- The switch statement of the Write template, dispatching on the stored
index after the register store, in the source's case order: fill unit 0,
fill unit 1, display transfer (fires when bit 0 of the just-written trigger
is set), command dispatch (likewise bit 0), default no side effect. -/
def dispatch (s1 : GPUState) (index : Nat) : GPUState × WEvents :=
  if index = fillValueIdx false then
    let p := runFill s1 false
    (p.fst, { noEvents with fill0 := p.snd })
  else if index = fillValueIdx true then
    let p := runFill s1 true
    (p.fst, { noEvents with fill1 := p.snd })
  else if index = dtTriggerIdx then
    if s1.regs dtTriggerIdx % 2 = 1 then
      let p := runTransfer s1
      (p.fst,
        { noEvents with
          transfer := true
          srcFmtErrs := p.snd.fst
          dstFmtErrs := p.snd.snd })
    else (s1, noEvents)
  else if index = cpTriggerIdx then
    if s1.regs cpTriggerIdx % 2 = 1 then (s1, { noEvents with command := true })
    else (s1, noEvents)
  else (s1, noEvents)

/-- The Write template of the source: reject out-of-range indices and widths
other than 32 bits (logging once, mutating nothing); otherwise store the
value truncated to 32 bits and dispatch on the index. -/
def Write (s : GPUState) (raw width data : Nat) : GPUState × WEvents :=
  let index := effIndex raw
  if numIds ≤ index ∨ width ≠ 32 then (s, { noEvents with errLogs := 1 })
  else dispatch (setReg s index (data % 4294967296)) index

/-- Frame part of Update: swap buffers (and latch the frame timestamp) when
strictly more than kFrameTicks u64 ticks have elapsed since the last frame. -/
def frameStep (s : GPUState) (ticks : Nat) : GPUState × Bool :=
  if s.kFrameTicks < sub64 ticks s.lastFrameTicks then
    ({ s with lastFrameTicks := ticks }, true)
  else (s, false)

/-- Scanline part of Update: when at least one line period (kFrameTicks
divided by the primary framebuffer height) has elapsed since the last line,
signal PDC0, increment the u32 line counter and latch the line timestamp. -/
def lineStep (s : GPUState) (ticks : Nat) : GPUState × Bool :=
  if s.kFrameTicks / s.regs fbTopHeightIdx ≤ sub64 ticks s.lastLineTicks then
    ({ s with curLine := (s.curLine + 1) % 4294967296, lastLineTicks := ticks }, true)
  else (s, false)

/-- Vertical-blank part of Update: once the line counter has reached the
primary framebuffer height, reset it and signal PDC1. -/
def vblankStep (s : GPUState) : GPUState × Bool :=
  if s.regs fbTopHeightIdx ≤ s.curLine then ({ s with curLine := 0 }, true)
  else (s, false)

/-- Signals emitted by one Update call: a buffer swap, a PDC0 scanline
interrupt, a PDC1 vblank interrupt. -/
structure UEvents where
  swap : Bool
  pdc0 : Bool
  pdc1 : Bool
  deriving DecidableEq

/-- The Update routine of the source: always run the frame-swap check; run
the scanline and vblank checks only when the call happens on a guest
scheduler reschedule. -/
def update (s : GPUState) (ticks : Nat) (resched : Bool) : GPUState × UEvents :=
  let f := frameStep s ticks
  if resched then
    let l := lineStep f.fst ticks
    let v := vblankStep l.fst
    (v.fst, { swap := f.snd, pdc0 := l.snd, pdc1 := v.snd })
  else (f.fst, { swap := f.snd, pdc0 := false, pdc1 := false })

/-- Aggregate result of a sequence of Update calls. -/
structure RunRes where
  state : GPUState
  swaps : Nat
  lines : Nat
  vblanks : Nat

/-- Count a boolean event. -/
def bn (b : Bool) : Nat := if b then 1 else 0

/-- Run a list of Update calls (tick value and reschedule flag for each),
counting the emitted events. -/
def runUpdates : GPUState → List (Nat × Bool) → RunRes
  | s, [] => { state := s, swaps := 0, lines := 0, vblanks := 0 }
  | s, (t, r) :: rest =>
    let p := update s t r
    let q := runUpdates p.fst rest
    { state := q.state, swaps := bn p.snd.swap + q.swaps,
      lines := bn p.snd.pdc0 + q.lines, vblanks := bn p.snd.pdc1 + q.vblanks }

/-- The Init routine of the source: compute the frame periods from the
configured refresh rate, reset the timing globals to the current tick count,
and install the default framebuffer configuration (addresses, 240x400 top and
240x320 sub at stride 720, RGB8, active buffer 0). -/
def Init (rate ticks : Nat) (s : GPUState) : GPUState :=
  let cycles := 268123480 / rate
  let s0 := { s with kFrameCycles := cycles, kFrameTicks := cycles / 3,
                     curLine := 0, lastFrameTicks := ticks, lastLineTicks := ticks }
  let s1 := setReg s0 (fbTopBase + 0) 0x181E6000
  let s2 := setReg s1 (fbTopBase + 1) 0x1822C800
  let s3 := setReg s2 (fbTopBase + 2) 0x18273000
  let s4 := setReg s3 (fbTopBase + 3) 0x182B9800
  let s5 := setReg s4 (fbSubBase + 0) 0x1848F000
  let s6 := setReg s5 (fbSubBase + 2) 0x184C7800
  let s7 := setReg s6 (fbTopBase + 4) 240
  let s8 := setReg s7 (fbTopBase + 5) 400
  let s9 := setReg s8 (fbTopBase + 6) (3 * 240)
  let s10 := setReg s9 (fbTopBase + 7) pfRGB8
  let s11 := setReg s10 (fbTopBase + 8) 0
  let s12 := setReg s11 (fbSubBase + 4) 240
  let s13 := setReg s12 (fbSubBase + 5) 320
  let s14 := setReg s13 (fbSubBase + 6) (3 * 240)
  let s15 := setReg s14 (fbSubBase + 7) pfRGB8
  setReg s15 (fbSubBase + 8) 0

/-- Scanline invariant stated by the spec: the line counter stays below the
primary framebuffer height. -/
def lineInvariant (s : GPUState) : Prop := s.curLine < s.regs fbTopHeightIdx

instance (s : GPUState) : Decidable (lineInvariant s) := by
  unfold lineInvariant; infer_instance

/-- An all-zero state, used as a concrete starting point. -/
def zeroState : GPUState :=
  { regs := fun _ => 0, mem := fun _ => 0, curLine := 0, lastLineTicks := 0,
    lastFrameTicks := 0, kFrameCycles := 0, kFrameTicks := 0 }

/-! ### Register-file lemmas -/

lemma setReg_regs (s : GPUState) (i v j : Nat) :
    (setReg s i v).regs j = if j = i then v else s.regs j := rfl

lemma setReg_mem (s : GPUState) (i v : Nat) : (setReg s i v).mem = s.mem := rfl

lemma runFill_fst_regs (s : GPUState) (u : Bool) : (runFill s u).fst.regs = s.regs := by
  unfold runFill
  dsimp only
  split <;> rfl

lemma runTransfer_fst_regs (s : GPUState) : (runTransfer s).fst.regs = s.regs := rfl

lemma dispatch_fst_regs (s1 : GPUState) (index : Nat) :
    (dispatch s1 index).fst.regs = s1.regs := by
  unfold dispatch
  split
  · rw [runFill_fst_regs]
  · split
    · rw [runFill_fst_regs]
    · split
      · split
        · rfl
        · rfl
      · split
        · split <;> rfl
        · rfl

lemma write_valid_eq (s : GPUState) (raw width data : Nat)
    (h : ¬(numIds ≤ effIndex raw ∨ width ≠ 32)) :
    Write s raw width data
      = dispatch (setReg s (effIndex raw) (data % 4294967296)) (effIndex raw) := by
  simp only [Write, if_neg h]

lemma write_valid_fst_regs (s : GPUState) (raw width data : Nat)
    (h : ¬(numIds ≤ effIndex raw ∨ width ≠ 32)) :
    (Write s raw width data).fst.regs =
      fun j => if j = effIndex raw then data % 4294967296 else s.regs j := by
  simp only [Write, if_neg h]
  rw [dispatch_fst_regs]
  rfl

/-- C3: for every physical address whose computed index lies below the
register count, a 32-bit write of v followed by a 32-bit read at the same
address returns v, and the register just written still holds v after any
side-effect handler fired by the write. -/
theorem c3_write_read_roundtrip (s : GPUState) (raw v : Nat)
    (hidx : effIndex raw < numIds) (hv : v < 4294967296) :
    (Read (Write s raw 32 v).fst raw 32).value = some v ∧
    (Write s raw 32 v).fst.regs (effIndex raw) = v := by
  have hg : ¬(numIds ≤ effIndex raw ∨ (32 : Nat) ≠ 32) := by omega
  have hr : (Write s raw 32 v).fst.regs (effIndex raw) = v := by
    rw [write_valid_fst_regs s raw 32 v hg]
    simp [Nat.mod_eq_of_lt hv]
  refine ⟨?_, hr⟩
  simp only [Read, if_neg hg, hr]

theorem c3_write_read_roundtrip_witness :
    effIndex (regBase + 8) < numIds ∧ (5 : Nat) < 4294967296 ∧
    ((Read (Write zeroState (regBase + 8) 32 5).fst (regBase + 8) 32).value = some 5 ∧
     (Write zeroState (regBase + 8) 32 5).fst.regs (effIndex (regBase + 8)) = 5) :=
  ⟨by decide, by decide, c3_write_read_roundtrip zeroState (regBase + 8) 5 (by decide) (by decide)⟩

/-- C9: a read or write whose computed index is out of range, or whose width
is not 32 bits, mutates nothing, fires no handler, and logs exactly once. -/
theorem c9_invalid_access_no_mutation (s : GPUState) (raw width data : Nat)
    (h : numIds ≤ effIndex raw ∨ width ≠ 32) :
    (Write s raw width data).fst = s ∧
    (Write s raw width data).snd = { noEvents with errLogs := 1 } ∧
    (Read s raw width).value = none ∧ (Read s raw width).errLogs = 1 := by
  simp [Write, Read, if_pos h]

theorem c9_invalid_access_no_mutation_witness :
    (numIds ≤ effIndex (regBase + 4 * numIds) ∨ (32 : Nat) ≠ 32) ∧
    ((Write zeroState (regBase + 4 * numIds) 32 5).fst = zeroState ∧
     (Write zeroState (regBase + 4 * numIds) 32 5).snd = { noEvents with errLogs := 1 } ∧
     (Read zeroState (regBase + 4 * numIds) 32).value = none ∧
     (Read zeroState (regBase + 4 * numIds) 32).errLogs = 1) :=
  ⟨Or.inl (by decide),
   c9_invalid_access_no_mutation zeroState (regBase + 4 * numIds) 32 5 (Or.inl (by decide))⟩

/-! ### Trigger-condition lemmas (claim C4) -/

lemma effIndex_fill0Value : effIndex (regBase + 4 * fillValueIdx false) = 7 := by decide

lemma effIndex_fill1Value : effIndex (regBase + 4 * fillValueIdx true) = 11 := by decide

lemma effIndex_dtTrigger : effIndex (regBase + 4 * dtTriggerIdx) = dtTriggerIdx := by decide

lemma effIndex_cpTrigger : effIndex (regBase + 4 * cpTriggerIdx) = cpTriggerIdx := by decide

/-- C4 (amended): writing 0 to the display-transfer or command-dispatch
trigger registers never fires their handlers, for any prior register state;
but the memory-fill value registers fire exactly when the previously
configured start address is non-zero, regardless of the written value. -/
theorem c4_zero_write_triggers (s : GPUState) :
    (Write s (regBase + 4 * dtTriggerIdx) 32 0).snd.transfer = false ∧
    (Write s (regBase + 4 * cpTriggerIdx) 32 0).snd.command = false ∧
    ((Write s (regBase + 4 * fillValueIdx false) 32 0).snd.fill0 = true ↔
      s.regs (fillStartIdx false) ≠ 0) ∧
    ((Write s (regBase + 4 * fillValueIdx true) 32 0).snd.fill1 = true ↔
      s.regs (fillStartIdx true) ≠ 0) := by
  refine ⟨?_, ?_, ?_, ?_⟩
  · have h1 : ¬(numIds ≤ effIndex (regBase + 4 * dtTriggerIdx) ∨ (32 : Nat) ≠ 32) := by
      rw [effIndex_dtTrigger]; decide
    simp only [Write, if_neg h1, effIndex_dtTrigger]
    unfold dispatch
    norm_num [numIds, dtTriggerIdx, dtBase, fillValueIdx, cpTriggerIdx, cpBase, setReg, noEvents]
  · have h1 : ¬(numIds ≤ effIndex (regBase + 4 * cpTriggerIdx) ∨ (32 : Nat) ≠ 32) := by
      rw [effIndex_cpTrigger]; decide
    simp only [Write, if_neg h1, effIndex_cpTrigger]
    unfold dispatch
    norm_num [numIds, dtTriggerIdx, dtBase, fillValueIdx, cpTriggerIdx, cpBase, setReg, noEvents]
  · have h1 : ¬(numIds ≤ effIndex (regBase + 4 * fillValueIdx false) ∨ (32 : Nat) ≠ 32) := by
      rw [effIndex_fill0Value]; decide
    simp only [Write, if_neg h1, effIndex_fill0Value]
    unfold dispatch
    norm_num [numIds, fillValueIdx, dtTriggerIdx, dtBase, cpTriggerIdx, cpBase]
    unfold runFill
    dsimp only
    simp only [fillStartIdx, fillValueIdx, fillEndIdx, setReg]
    norm_num
    split
    · next hne => simpa using hne
    · next hne => simpa using hne
  · have h1 : ¬(numIds ≤ effIndex (regBase + 4 * fillValueIdx true) ∨ (32 : Nat) ≠ 32) := by
      rw [effIndex_fill1Value]; decide
    simp only [Write, if_neg h1, effIndex_fill1Value]
    unfold dispatch
    norm_num [numIds, fillValueIdx, dtTriggerIdx, dtBase, cpTriggerIdx, cpBase]
    unfold runFill
    dsimp only
    simp only [fillStartIdx, fillValueIdx, fillEndIdx, setReg]
    norm_num
    split
    · next hne => simpa using hne
    · next hne => simpa using hne

/-- C4 counterexample: with the unit-0 fill start register holding 8, writing
the value 0 to the unit-0 fill value (trigger) register still fires the
memory-fill handler, so a zero write to a trigger register can fire its
side-effect handler. -/
theorem c4_zero_write_fires_fill :
    (Write { zeroState with regs := fun i => if i = 4 then 8 else 0 }
        (regBase + 4 * fillValueIdx false) 32 0).snd.fill0 = true := by decide

/-! ### Memory-fill lemmas (claim C2) -/

lemma mem32Write_apply (m : Mem) (a w b : Nat) :
    mem32Write m a w b = if a ≤ b ∧ b < a + 4 then bytePart w (b - a) else m b := by
  have h5 : b < a ∨ b = a ∨ b = a + 1 ∨ b = a + 2 ∨ b = a + 3 ∨ a + 4 ≤ b := by omega
  rcases h5 with h | h | h | h | h | h <;>
    simp only [mem32Write, writeByte, bytePart] <;>
    split_ifs <;> first | rfl | omega

lemma fillWords_apply (w : Nat) : ∀ (n : Nat) (m : Mem) (a b : Nat),
    fillWords w n m a b = if a ≤ b ∧ b < a + 4 * n then bytePart w ((b - a) % 4) else m b := by
  intro n
  induction n with
  | zero =>
    intro m a b
    simp only [fillWords]
    rw [if_neg (by omega)]
  | succ n ih =>
    intro m a b
    show fillWords w n (mem32Write m a w) (a + 4) b = _
    rw [ih, mem32Write_apply]
    split_ifs with h1 h2 h2 h3 h3
    · have : (b - (a + 4)) % 4 = (b - a) % 4 := by omega
      rw [this]
    · omega
    · have : (b - a) % 4 = b - a := by omega
      rw [this]
    · omega
    · omega
    · rfl

lemma bswap32_lt (w : Nat) : bswap32 w < 4294967296 := by
  unfold bswap32
  omega

lemma bytePart_sum (w : Nat) (hw : w < 4294967296) :
    bytePart w 0 + 256 * bytePart w 1 + 65536 * bytePart w 2 + 16777216 * bytePart w 3
      = w := by
  simp only [bytePart]
  norm_num
  omega

/-- Reading back a word from a region fully written by fillWords yields the
fill word. -/
lemma fillWords_read (w n : Nat) (m : Mem) (a k : Nat) (hw : w < 4294967296)
    (hk : k < n) :
    mem32Read (fillWords w n m a) (a + 4 * k) = w := by
  have h0 := fillWords_apply w n m a (a + 4 * k)
  have h1 := fillWords_apply w n m a (a + 4 * k + 1)
  have h2 := fillWords_apply w n m a (a + 4 * k + 2)
  have h3 := fillWords_apply w n m a (a + 4 * k + 3)
  rw [if_pos (by omega), (by omega : a + 4 * k - a = 4 * k),
    (by omega : (4 * k) % 4 = 0)] at h0
  rw [if_pos (by omega), (by omega : a + 4 * k + 1 - a = 4 * k + 1),
    (by omega : (4 * k + 1) % 4 = 1)] at h1
  rw [if_pos (by omega), (by omega : a + 4 * k + 2 - a = 4 * k + 2),
    (by omega : (4 * k + 2) % 4 = 2)] at h2
  rw [if_pos (by omega), (by omega : a + 4 * k + 3 - a = 4 * k + 3),
    (by omega : (4 * k + 3) % 4 = 3)] at h3
  unfold mem32Read
  rw [h0, h1, h2, h3]
  exact bytePart_sum w hw

lemma runFill_fired_mem (s : GPUState) (u : Bool) (h : s.regs (fillStartIdx u) ≠ 0) :
    (runFill s u).fst.mem =
      fillWords (bswap32 (s.regs (fillValueIdx u)))
        ((s.regs (fillEndIdx u) - s.regs (fillStartIdx u) + 3) / 4)
        s.mem (s.regs (fillStartIdx u)) := by
  unfold runFill
  dsimp only
  rw [if_pos h]

lemma runFill_skipped (s : GPUState) (u : Bool) (h : s.regs (fillStartIdx u) = 0) :
    (runFill s u).fst = s := by
  unfold runFill
  dsimp only
  rw [if_neg (by simp [h])]

/-- C2: a triggered memory fill whose configured start address is non-zero,
word-aligned and strictly below the end address stores the byte-order
reversal of the written fill value over every 32-bit word of
[start, end); a fill whose start address is 0 writes no memory at all. -/
theorem c2_memory_fill (s : GPUState) (second : Bool) (V k : Nat) :
    (s.regs (fillStartIdx second) ≠ 0 →
      s.regs (fillStartIdx second) % 4 = 0 →
      s.regs (fillStartIdx second) < s.regs (fillEndIdx second) →
      V < 4294967296 →
      s.regs (fillStartIdx second) + 4 * k + 4 ≤ s.regs (fillEndIdx second) →
      mem32Read (Write s (regBase + 4 * fillValueIdx second) 32 V).fst.mem
          (s.regs (fillStartIdx second) + 4 * k)
        = bswap32 V) ∧
    (s.regs (fillStartIdx second) = 0 →
      (Write s (regBase + 4 * fillValueIdx second) 32 V).fst.mem = s.mem) := by
  have hidx : effIndex (regBase + 4 * fillValueIdx second) = fillValueIdx second := by
    cases second
    · exact effIndex_fill0Value
    · exact effIndex_fill1Value
  have hne : ¬(numIds ≤ effIndex (regBase + 4 * fillValueIdx second) ∨ (32 : Nat) ≠ 32) := by
    rw [hidx]; cases second <;> decide
  have hsr : ∀ i v j, (setReg s i v).regs j = if j = i then v else s.regs j := fun _ _ _ => rfl
  have hstart : (setReg s (fillValueIdx second) (V % 4294967296)).regs (fillStartIdx second)
      = s.regs (fillStartIdx second) := by
    rw [hsr]; cases second <;> simp [fillStartIdx, fillValueIdx]
  have hend : (setReg s (fillValueIdx second) (V % 4294967296)).regs (fillEndIdx second)
      = s.regs (fillEndIdx second) := by
    rw [hsr]; cases second <;> simp [fillEndIdx, fillValueIdx]
  have hval : (setReg s (fillValueIdx second) (V % 4294967296)).regs (fillValueIdx second)
      = V % 4294967296 := by
    rw [hsr]; simp
  have hdisp : (Write s (regBase + 4 * fillValueIdx second) 32 V).fst
      = (runFill (setReg s (fillValueIdx second) (V % 4294967296)) second).fst := by
    rw [write_valid_eq _ _ _ _ hne, hidx]
    unfold dispatch
    cases second
    · rw [if_pos rfl]
    · rw [if_neg (by norm_num [fillValueIdx]), if_pos rfl]
  constructor
  · intro h0 _ _ hV hran
    rw [hdisp, runFill_fired_mem _ _ (by rw [hstart]; exact h0), hstart, hend, hval,
      Nat.mod_eq_of_lt hV]
    exact fillWords_read _ _ _ _ _ (bswap32_lt V) (by omega)
  · intro h0
    rw [hdisp, runFill_skipped _ _ (by rw [hstart]; exact h0)]
    rfl

theorem c2_memory_fill_witness :
    ((8 : Nat) ≠ 0 ∧ (8 : Nat) % 4 = 0 ∧ (8 : Nat) < 16 ∧ (287454020 : Nat) < 4294967296 ∧
      8 + 4 * 1 + 4 ≤ 16 ∧
      mem32Read (Write { zeroState with regs := fun i => if i = 4 then 8 else if i = 5 then 16 else 0 }
          (regBase + 4 * fillValueIdx false) 32 287454020).fst.mem (8 + 4 * 1)
        = bswap32 287454020) ∧
    ((Write { zeroState with regs := fun _ => 0 }
        (regBase + 4 * fillValueIdx false) 32 287454020).fst.mem = zeroState.mem) := by
  constructor
  · refine ⟨by decide, by decide, by decide, by decide, by decide, ?_⟩
    have h := (c2_memory_fill
      { zeroState with regs := fun i => if i = 4 then 8 else if i = 5 then 16 else 0 }
      false 287454020 1).left
    simpa using h (by decide) (by decide) (by decide) (by decide) (by decide)
  · have h := (c2_memory_fill { zeroState with regs := fun _ => 0 } false 287454020 1).right
    simpa using h (by decide)

/-! ### Display-transfer lemmas shared by claims C1 and C7 -/

lemma write_dt_trigger_eq (s : GPUState) (data : Nat) (htrig : data % 2 = 1) :
    Write s (regBase + 4 * dtTriggerIdx) 32 data
      = ((runTransfer (setReg s dtTriggerIdx (data % 4294967296))).fst,
         { noEvents with
           transfer := true
           srcFmtErrs := (runTransfer (setReg s dtTriggerIdx (data % 4294967296))).snd.fst
           dstFmtErrs := (runTransfer (setReg s dtTriggerIdx (data % 4294967296))).snd.snd }) := by
  have hne : ¬(numIds ≤ effIndex (regBase + 4 * dtTriggerIdx) ∨ (32 : Nat) ≠ 32) := by
    rw [effIndex_dtTrigger]; decide
  rw [write_valid_eq _ _ _ _ hne, effIndex_dtTrigger]
  unfold dispatch
  rw [if_neg (by norm_num [dtTriggerIdx, dtBase, fillValueIdx]),
    if_neg (by norm_num [dtTriggerIdx, dtBase, fillValueIdx]), if_pos rfl]
  have hcond : (setReg s dtTriggerIdx (data % 4294967296)).regs dtTriggerIdx % 2 = 1 := by
    show (if dtTriggerIdx = dtTriggerIdx then data % 4294967296 else s.regs dtTriggerIdx) % 2 = 1
    rw [if_pos rfl]
    omega
  rw [if_pos hcond]

lemma setReg_dtTrigger_other (s : GPUState) (v i : Nat) (hne : i ≠ dtTriggerIdx) :
    (setReg s dtTriggerIdx v).regs i = s.regs i := by
  show (if i = dtTriggerIdx then v else s.regs i) = s.regs i
  rw [if_neg hne]

lemma dtConf_setReg_trigger (s : GPUState) (v : Nat) :
    dtConf (setReg s dtTriggerIdx v) = dtConf s := by
  unfold dtConf
  rw [setReg_dtTrigger_other s v dtInAddrIdx (by norm_num [dtInAddrIdx, dtTriggerIdx, dtBase]),
    setReg_dtTrigger_other s v dtOutAddrIdx (by norm_num [dtOutAddrIdx, dtTriggerIdx, dtBase]),
    setReg_dtTrigger_other s v dtInWidthIdx (by norm_num [dtInWidthIdx, dtTriggerIdx, dtBase]),
    setReg_dtTrigger_other s v dtInHeightIdx (by norm_num [dtInHeightIdx, dtTriggerIdx, dtBase]),
    setReg_dtTrigger_other s v dtOutWidthIdx (by norm_num [dtOutWidthIdx, dtTriggerIdx, dtBase]),
    setReg_dtTrigger_other s v dtOutHeightIdx (by norm_num [dtOutHeightIdx, dtTriggerIdx, dtBase]),
    setReg_dtTrigger_other s v dtInFmtIdx (by norm_num [dtInFmtIdx, dtTriggerIdx, dtBase]),
    setReg_dtTrigger_other s v dtOutFmtIdx (by norm_num [dtOutFmtIdx, dtTriggerIdx, dtBase])]

/-! ### Claim C7: unsupported output format -/

lemma transferPixel_badout (c : TConf) (x y : Nat) (acc : TAcc) (hout : c.outfmt ≠ pfRGB8) :
    transferPixel c x y acc
      = { mem := acc.mem,
          srcErrs := if c.infmt = pfRGBA8 then acc.srcErrs else acc.srcErrs + 1,
          dstErrs := acc.dstErrs + 1 } := by
  unfold transferPixel
  dsimp only
  rw [if_neg hout]

lemma transferCols_badout (c : TConf) (y : Nat) (hout : c.outfmt ≠ pfRGB8) :
    ∀ (n : Nat) (acc : TAcc),
      (transferCols c y n acc).mem = acc.mem ∧
      (transferCols c y n acc).dstErrs = acc.dstErrs + n := by
  intro n
  induction n with
  | zero => intro acc; exact ⟨rfl, rfl⟩
  | succ n ih =>
    intro acc
    show (transferPixel c n y (transferCols c y n acc)).mem = acc.mem ∧
      (transferPixel c n y (transferCols c y n acc)).dstErrs = acc.dstErrs + (n + 1)
    rw [transferPixel_badout c n y _ hout]
    obtain ⟨h1, h2⟩ := ih acc
    refine ⟨h1, ?_⟩
    show (transferCols c y n acc).dstErrs + 1 = acc.dstErrs + (n + 1)
    omega

lemma transferRows_badout (c : TConf) (hout : c.outfmt ≠ pfRGB8) :
    ∀ (n : Nat) (acc : TAcc),
      (transferRows c n acc).mem = acc.mem ∧
      (transferRows c n acc).dstErrs = acc.dstErrs + n * c.ow := by
  intro n
  induction n with
  | zero =>
    intro acc
    refine ⟨rfl, ?_⟩
    show acc.dstErrs = acc.dstErrs + 0 * c.ow
    simp
  | succ n ih =>
    intro acc
    show (transferCols c n c.ow (transferRows c n acc)).mem = acc.mem ∧
      (transferCols c n c.ow (transferRows c n acc)).dstErrs = acc.dstErrs + (n + 1) * c.ow
    obtain ⟨h1, h2⟩ := ih acc
    obtain ⟨g1, g2⟩ := transferCols_badout c n hout c.ow (transferRows c n acc)
    refine ⟨by rw [g1, h1], ?_⟩
    rw [g2, h2]
    ring

/-- C7 (amended): a triggered display transfer whose output format is not
RGB8 leaves guest memory entirely unchanged, and records one
UnsupportedPixelFormat event per destination pixel, output_width times
output_height events in total (per pixel, not once per transfer). -/
theorem c7_unsupported_output_format (s : GPUState) (data : Nat)
    (hout : s.regs dtOutFmtIdx ≠ pfRGB8) (htrig : data % 2 = 1) :
    (Write s (regBase + 4 * dtTriggerIdx) 32 data).fst.mem = s.mem ∧
    (Write s (regBase + 4 * dtTriggerIdx) 32 data).snd.dstFmtErrs
      = s.regs dtOutWidthIdx * s.regs dtOutHeightIdx := by
  rw [write_dt_trigger_eq s data htrig]
  have hc : dtConf (setReg s dtTriggerIdx (data % 4294967296)) = dtConf s :=
    dtConf_setReg_trigger s (data % 4294967296)
  have hout2 : (dtConf s).outfmt ≠ pfRGB8 := hout
  have hmem := (transferRows_badout (dtConf s) hout2 (dtConf s).oh
    { mem := s.mem, srcErrs := 0, dstErrs := 0 }).left
  have herr := (transferRows_badout (dtConf s) hout2 (dtConf s).oh
    { mem := s.mem, srcErrs := 0, dstErrs := 0 }).right
  constructor
  · show (runTransfer (setReg s dtTriggerIdx (data % 4294967296))).fst.mem = s.mem
    unfold runTransfer
    rw [hc]
    exact hmem
  · show (runTransfer (setReg s dtTriggerIdx (data % 4294967296))).snd.snd
      = s.regs dtOutWidthIdx * s.regs dtOutHeightIdx
    unfold runTransfer
    rw [hc, setReg_mem]
    dsimp only
    rw [herr]
    show 0 + (dtConf s).oh * (dtConf s).ow = s.regs dtOutWidthIdx * s.regs dtOutHeightIdx
    unfold dtConf
    dsimp only
    ring

theorem c7_unsupported_output_format_witness :
    ((zeroState.regs dtOutFmtIdx ≠ pfRGB8 → False) → False) ∧
    (1 : Nat) % 2 = 1 ∧
    ((Write zeroState (regBase + 4 * dtTriggerIdx) 32 1).fst.mem = zeroState.mem ∧
     (Write zeroState (regBase + 4 * dtTriggerIdx) 32 1).snd.dstFmtErrs
       = zeroState.regs dtOutWidthIdx * zeroState.regs dtOutHeightIdx) :=
  ⟨fun h => h (by decide), by decide,
   c7_unsupported_output_format zeroState 1 (by decide) (by decide)⟩

/-- C7 counterexample: a 2-by-1 transfer to an unsupported output format
records two UnsupportedPixelFormat events, not exactly one for the whole
transfer. -/
theorem c7_two_events_for_two_pixels :
    (Write { zeroState with regs := fun i =>
        if i = dtInWidthIdx then 2 else
        if i = dtOutWidthIdx then 2 else
        if i = dtOutHeightIdx then 1 else
        if i = dtOutFmtIdx then 3 else 0 }
      (regBase + 4 * dtTriggerIdx) 32 1).snd.dstFmtErrs = 2 := by decide

/-! ### Timing-machine lemmas (claims C5, C6, C10) -/

lemma sub64_eq_sub (a b : Nat) (h1 : b ≤ a) (h2 : a < 18446744073709551616) :
    sub64 a b = a - b := by
  unfold sub64
  omega

lemma sub64_self (a : Nat) : sub64 a a = 0 := by
  unfold sub64
  omega

lemma update_swap_iff (s : GPUState) (t : Nat) (r : Bool) :
    (update s t r).snd.swap = true ↔ s.kFrameTicks < sub64 t s.lastFrameTicks := by
  unfold update frameStep lineStep vblankStep
  cases r <;> dsimp only <;> split_ifs <;> simp_all

lemma update_fst_lastFrameTicks (s : GPUState) (t : Nat) (r : Bool) :
    (update s t r).fst.lastFrameTicks =
      if s.kFrameTicks < sub64 t s.lastFrameTicks then t else s.lastFrameTicks := by
  unfold update frameStep lineStep vblankStep
  cases r <;> dsimp only <;> split_ifs <;> rfl

lemma update_fst_kFrameTicks (s : GPUState) (t : Nat) (r : Bool) :
    (update s t r).fst.kFrameTicks = s.kFrameTicks := by
  unfold update frameStep lineStep vblankStep
  cases r <;> dsimp only <;> split_ifs <;> rfl

lemma update_fst_regs (s : GPUState) (t : Nat) (r : Bool) :
    (update s t r).fst.regs = s.regs := by
  unfold update frameStep lineStep vblankStep
  cases r <;> dsimp only <;> split_ifs <;> rfl

lemma runUpdates_cons (s : GPUState) (t : Nat) (r : Bool) (l : List (Nat × Bool)) :
    runUpdates s ((t, r) :: l)
      = { state := (runUpdates (update s t r).fst l).state,
          swaps := bn (update s t r).snd.swap + (runUpdates (update s t r).fst l).swaps,
          lines := bn (update s t r).snd.pdc0 + (runUpdates (update s t r).fst l).lines,
          vblanks := bn (update s t r).snd.pdc1 + (runUpdates (update s t r).fst l).vblanks } :=
  rfl

lemma run_same_tick_no_swap (t : Nat) :
    ∀ (rs : List Bool) (s : GPUState), s.lastFrameTicks = t →
      (runUpdates s (rs.map (fun b => (t, b)))).swaps = 0 := by
  intro rs
  induction rs with
  | nil => intro s _; rfl
  | cons b rs ih =>
    intro s hs
    have hns : ¬ s.kFrameTicks < sub64 t s.lastFrameTicks := by
      rw [hs, sub64_self t]
      omega
    have hsw : (update s t b).snd.swap = false := by
      rcases Bool.eq_false_or_eq_true (update s t b).snd.swap with h | h
      · exact absurd ((update_swap_iff s t b).mp h) hns
      · exact h
    have hlf : (update s t b).fst.lastFrameTicks = t := by
      rw [update_fst_lastFrameTicks, if_neg hns, hs]
    show bn (update s t b).snd.swap + _ = 0
    rw [hsw, ih (update s t b).fst hlf]
    rfl

lemma run_same_tick_le_one (t : Nat) :
    ∀ (rs : List Bool) (s : GPUState), s.lastFrameTicks ≤ t →
      (runUpdates s (rs.map (fun b => (t, b)))).swaps ≤ 1 := by
  intro rs
  induction rs with
  | nil => intro s _; exact Nat.zero_le 1
  | cons b rs ih =>
    intro s hs
    show bn (update s t b).snd.swap + (runUpdates (update s t b).fst _).swaps ≤ 1
    rcases Bool.eq_false_or_eq_true (update s t b).snd.swap with hsw | hsw
    · have hcond := (update_swap_iff s t b).mp hsw
      have hlf : (update s t b).fst.lastFrameTicks = t := by
        rw [update_fst_lastFrameTicks, if_pos hcond]
      rw [hsw, run_same_tick_no_swap t rs (update s t b).fst hlf]
      simp [bn]
    · have hlf : (update s t b).fst.lastFrameTicks ≤ t := by
        rw [update_fst_lastFrameTicks]
        split_ifs
        · exact Nat.le_refl t
        · exact hs
      rw [hsw]
      have := ih (update s t b).fst hlf
      simpa [bn] using this

/-- C5: on every advance call the buffer swap fires exactly when the elapsed
ticks since the last frame strictly exceed the frame period, a swap latches
the frame timestamp to the current tick count, and any sequence of advance
calls at one unchanged tick count swaps at most once. -/
theorem c5_frame_swap (s : GPUState) (t : Nat) (r : Bool)
    (h1 : s.lastFrameTicks ≤ t) (h2 : t < 18446744073709551616) :
    ((update s t r).snd.swap = true ↔ s.kFrameTicks < t - s.lastFrameTicks) ∧
    ((update s t r).snd.swap = true → (update s t r).fst.lastFrameTicks = t) ∧
    (∀ rs : List Bool, (runUpdates s (rs.map (fun b => (t, b)))).swaps ≤ 1) := by
  have hsub : sub64 t s.lastFrameTicks = t - s.lastFrameTicks := sub64_eq_sub t _ h1 h2
  refine ⟨?_, ?_, ?_⟩
  · rw [update_swap_iff, hsub]
  · intro hsw
    rw [update_fst_lastFrameTicks, if_pos ((update_swap_iff s t r).mp hsw)]
  · intro rs
    exact run_same_tick_le_one t rs s h1

theorem c5_frame_swap_witness :
    zeroState.lastFrameTicks ≤ 5 ∧ (5 : Nat) < 18446744073709551616 ∧
    (((update zeroState 5 true).snd.swap = true ↔
        zeroState.kFrameTicks < 5 - zeroState.lastFrameTicks) ∧
     ((update zeroState 5 true).snd.swap = true →
        (update zeroState 5 true).fst.lastFrameTicks = 5) ∧
     (∀ rs : List Bool,
        (runUpdates zeroState (rs.map (fun b => (5, b)))).swaps ≤ 1)) :=
  ⟨by decide, by decide, c5_frame_swap zeroState 5 true (by decide) (by decide)⟩

/-! ### Scanline and vblank timing (claim C6) -/

lemma frameStep_fields (s : GPUState) (t : Nat) :
    (frameStep s t).fst.curLine = s.curLine ∧
    (frameStep s t).fst.lastLineTicks = s.lastLineTicks ∧
    (frameStep s t).fst.kFrameTicks = s.kFrameTicks ∧
    (frameStep s t).fst.regs = s.regs := by
  unfold frameStep
  split <;> exact ⟨rfl, rfl, rfl, rfl⟩

lemma lineStep_fired (s : GPUState) (t : Nat)
    (hcond : s.kFrameTicks / s.regs fbTopHeightIdx ≤ sub64 t s.lastLineTicks) :
    lineStep s t
      = ({ s with curLine := (s.curLine + 1) % 4294967296, lastLineTicks := t }, true) := by
  unfold lineStep
  rw [if_pos hcond]

lemma vblankStep_reset (s : GPUState) (hcond : s.regs fbTopHeightIdx ≤ s.curLine) :
    vblankStep s = ({ s with curLine := 0 }, true) := by
  unfold vblankStep
  rw [if_pos hcond]

lemma vblankStep_keep (s : GPUState) (hcond : ¬ s.regs fbTopHeightIdx ≤ s.curLine) :
    vblankStep s = (s, false) := by
  unfold vblankStep
  rw [if_neg hcond]

lemma update_true_def (s : GPUState) (t : Nat) :
    update s t true
      = ((vblankStep (lineStep (frameStep s t).fst t).fst).fst,
         { swap := (frameStep s t).snd,
           pdc0 := (lineStep (frameStep s t).fst t).snd,
           pdc1 := (vblankStep (lineStep (frameStep s t).fst t).fst).snd }) := rfl

lemma update_false_def (s : GPUState) (t : Nat) :
    update s t false
      = ((frameStep s t).fst,
         { swap := (frameStep s t).snd, pdc0 := false, pdc1 := false }) := rfl

/-- One qualifying reschedule advance: with the line period elapsed and the
counter strictly below the height, the call signals PDC0, bumps the counter
(resetting it and signalling PDC1 exactly when it reaches the height) and
latches the line timestamp. -/
lemma update_true_step (s : GPUState) (t H c : Nat)
    (hH : s.regs fbTopHeightIdx = H) (hc : s.curLine = c)
    (hcH : c + 1 ≤ H) (hmax : H < 4294967296)
    (hle : s.lastLineTicks ≤ t) (ht : t < 18446744073709551616)
    (hcond : s.kFrameTicks / H ≤ t - s.lastLineTicks) :
    (update s t true).snd.pdc0 = true ∧
    ((update s t true).snd.pdc1 = true ↔ c + 1 = H) ∧
    (update s t true).fst.curLine = (if c + 1 = H then 0 else c + 1) ∧
    (update s t true).fst.lastLineTicks = t := by
  obtain ⟨hf1, hf2, hf3, hf4⟩ := frameStep_fields s t
  have hlcond : (frameStep s t).fst.kFrameTicks / (frameStep s t).fst.regs fbTopHeightIdx
      ≤ sub64 t (frameStep s t).fst.lastLineTicks := by
    rw [hf2, hf3, hf4, hH, sub64_eq_sub t _ hle ht]
    exact hcond
  have hl := lineStep_fired (frameStep s t).fst t hlcond
  have hcl : (lineStep (frameStep s t).fst t).fst.curLine = c + 1 := by
    rw [hl]
    show ((frameStep s t).fst.curLine + 1) % 4294967296 = c + 1
    rw [hf1, hc, Nat.mod_eq_of_lt (by omega)]
  have hreg : (lineStep (frameStep s t).fst t).fst.regs fbTopHeightIdx = H := by
    rw [hl]
    show (frameStep s t).fst.regs fbTopHeightIdx = H
    rw [hf4, hH]
  have hllt : (lineStep (frameStep s t).fst t).fst.lastLineTicks = t := by
    rw [hl]
  by_cases hEnd : c + 1 = H
  · have hv := vblankStep_reset (lineStep (frameStep s t).fst t).fst
      (by rw [hreg, hcl]; omega)
    refine ⟨?_, ?_, ?_, ?_⟩
    · rw [update_true_def, hl]
    · rw [update_true_def, hv]
      simpa using hEnd
    · rw [update_true_def, hv, if_pos hEnd]
    · rw [update_true_def, hv]
      show (lineStep (frameStep s t).fst t).fst.lastLineTicks = t
      exact hllt
  · have hv := vblankStep_keep (lineStep (frameStep s t).fst t).fst
      (by rw [hreg, hcl]; omega)
    refine ⟨?_, ?_, ?_, ?_⟩
    · rw [update_true_def, hl]
    · rw [update_true_def, hv]
      simpa using hEnd
    · rw [update_true_def, hv, if_neg hEnd]
      exact hcl
    · rw [update_true_def, hv]
      exact hllt

/-- Tick sequences spaced at least one line period apart, each below the u64
bound, starting from a previous timestamp. -/
def spaced (p : Nat) : Nat → List Nat → Prop
  | _, [] => True
  | prev, t :: ts => prev + p ≤ t ∧ t < 18446744073709551616 ∧ spaced p t ts

instance spacedDecidable (p : Nat) : (prev : Nat) → (ts : List Nat) → Decidable (spaced p prev ts)
  | _, [] => .isTrue trivial
  | prev, t :: ts =>
    have d : Decidable (spaced p t ts) := spacedDecidable p t ts
    show Decidable (prev + p ≤ t ∧ t < 18446744073709551616 ∧ spaced p t ts) from
      @instDecidableAnd _ _ inferInstance (@instDecidableAnd _ _ inferInstance d)

/-- Running qualifying reschedule advances from counter value c: the counter
walks up one line per call, and a vblank fires exactly on the call that
reaches the height, resetting the counter. -/
lemma runTrue_lines (H : Nat) (hmax : H < 4294967296) :
    ∀ (ts : List Nat) (s : GPUState) (c : Nat),
      s.regs fbTopHeightIdx = H → s.curLine = c → c + ts.length ≤ H →
      spaced (s.kFrameTicks / H) s.lastLineTicks ts →
      ((runUpdates s (ts.map (fun t => (t, true)))).vblanks
          = if c + ts.length = H ∧ 0 < ts.length then 1 else 0) ∧
      ((runUpdates s (ts.map (fun t => (t, true)))).state.curLine
          = if c + ts.length = H ∧ 0 < ts.length then 0 else c + ts.length) := by
  intro ts
  induction ts with
  | nil =>
    intro s c hH hc hlen _
    refine ⟨by simp [runUpdates], ?_⟩
    show s.curLine = if c + 0 = H ∧ 0 < 0 then 0 else c + 0
    simp [hc]
  | cons t ts ih =>
    intro s c hH hc hlen hsp
    obtain ⟨hle, htb, hsp2⟩ := hsp
    have hlen2 : c + (ts.length + 1) ≤ H := by simpa [List.length_cons] using hlen
    have hple : s.lastLineTicks ≤ t := le_trans (Nat.le_add_right _ _) hle
    have hcond : s.kFrameTicks / H ≤ t - s.lastLineTicks := by omega
    obtain ⟨hp0, hp1, hcl, hll⟩ := update_true_step s t H c hH hc (by omega) hmax
      hple htb hcond
    simp only [List.map_cons]
    rw [runUpdates_cons]
    by_cases hEnd : c + 1 = H
    · have hts : ts = [] := by
        have : ts.length = 0 := by omega
        exact List.length_eq_zero.mp this
      subst hts
      have hp1t : (update s t true).snd.pdc1 = true := hp1.mpr hEnd
      have hcnd : c + (0 + 1) = H ∧ 0 < 0 + 1 := ⟨by omega, by omega⟩
      constructor
      · show bn (update s t true).snd.pdc1 + (runUpdates (update s t true).fst []).vblanks = _
        rw [hp1t]
        show 1 + 0 = if c + (0 + 1) = H ∧ 0 < 0 + 1 then 1 else 0
        rw [if_pos hcnd]
      · show (update s t true).fst.curLine = _
        rw [hcl, if_pos hEnd]
        show (0 : Nat) = if c + (0 + 1) = H ∧ 0 < 0 + 1 then 0 else c + (0 + 1)
        rw [if_pos hcnd]
    · have hp1f : (update s t true).snd.pdc1 = false := by
        rcases Bool.eq_false_or_eq_true (update s t true).snd.pdc1 with h | h
        · exact absurd (hp1.mp h) hEnd
        · exact h
      obtain ⟨hv, hcl2⟩ := ih (update s t true).fst (c + 1)
        (by rw [update_fst_regs]; exact hH)
        (by rw [hcl, if_neg hEnd])
        (by omega)
        (by rw [update_fst_kFrameTicks, hll]; exact hsp2)
      constructor
      · show bn (update s t true).snd.pdc1 + _ = _
        rw [hp1f, hv]
        show 0 + (if c + 1 + ts.length = H ∧ 0 < ts.length then 1 else 0)
            = if c + (ts.length + 1) = H ∧ 0 < ts.length + 1 then 1 else 0
        split_ifs <;> omega
      · show (runUpdates (update s t true).fst (ts.map (fun t => (t, true)))).state.curLine = _
        rw [hcl2]
        simp only [List.length_cons]
        split_ifs <;> omega

/-- C6: from counter 0 with positive height H below 2^32, H reschedule
advances spaced at least one line period apart emit exactly one vblank and
return the counter to 0; and an advance without a reschedule emits neither
PDC0 nor PDC1 while reaching the same buffer-swap decision as a reschedule
advance at the same tick. -/
theorem c6_vblank_period (s : GPUState) (ts : List Nat)
    (hc : s.curLine = 0)
    (h0 : 0 < s.regs fbTopHeightIdx)
    (hmax : s.regs fbTopHeightIdx < 4294967296)
    (hlen : ts.length = s.regs fbTopHeightIdx)
    (hsp : spaced (s.kFrameTicks / s.regs fbTopHeightIdx) s.lastLineTicks ts) :
    ((runUpdates s (ts.map (fun t => (t, true)))).vblanks = 1 ∧
     (runUpdates s (ts.map (fun t => (t, true)))).state.curLine = 0) ∧
    (∀ (s2 : GPUState) (t : Nat),
      (update s2 t false).snd.pdc0 = false ∧
      (update s2 t false).snd.pdc1 = false ∧
      (update s2 t false).snd.swap = (update s2 t true).snd.swap) := by
  obtain ⟨hv, hcl⟩ := runTrue_lines (s.regs fbTopHeightIdx) hmax ts s 0 rfl hc
    (by omega) hsp
  have hcnd : 0 + ts.length = s.regs fbTopHeightIdx ∧ 0 < ts.length := ⟨by omega, by omega⟩
  refine ⟨⟨?_, ?_⟩, ?_⟩
  · rw [hv, if_pos hcnd]
  · rw [hcl, if_pos hcnd]
  · intro s2 t
    exact ⟨rfl, rfl, rfl⟩

/-- Concrete two-line state exercising the vblank-period theorem. -/
def c6WitnessState : GPUState :=
  { zeroState with
    regs := fun i => if i = fbTopHeightIdx then 2 else 0
    kFrameTicks := 8 }

theorem c6_vblank_period_witness :
    c6WitnessState.curLine = 0 ∧
    0 < c6WitnessState.regs fbTopHeightIdx ∧
    c6WitnessState.regs fbTopHeightIdx < 4294967296 ∧
    ([4, 8] : List Nat).length = c6WitnessState.regs fbTopHeightIdx ∧
    spaced (c6WitnessState.kFrameTicks / c6WitnessState.regs fbTopHeightIdx)
      c6WitnessState.lastLineTicks [4, 8] ∧
    (((runUpdates c6WitnessState (([4, 8] : List Nat).map (fun t => (t, true)))).vblanks = 1 ∧
      (runUpdates c6WitnessState (([4, 8] : List Nat).map (fun t => (t, true)))).state.curLine = 0) ∧
     (∀ (s2 : GPUState) (t : Nat),
       (update s2 t false).snd.pdc0 = false ∧
       (update s2 t false).snd.pdc1 = false ∧
       (update s2 t false).snd.swap = (update s2 t true).snd.swap)) :=
  ⟨by decide, by decide, by decide, by decide, by decide,
   c6_vblank_period c6WitnessState [4, 8] (by decide) (by decide) (by decide) (by decide)
     (by decide)⟩

/-! ### Claim C10: scanline counter invariant -/

lemma lineStep_fst_regs (s : GPUState) (t : Nat) : (lineStep s t).fst.regs = s.regs := by
  unfold lineStep
  split <;> rfl

/-- The primary framebuffer height installed by Init. -/
lemma init_height (rate t : Nat) (s : GPUState) :
    (Init rate t s).regs fbTopHeightIdx = 400 := rfl

/-- The scanline counter right after Init. -/
lemma init_curLine (rate t : Nat) (s : GPUState) : (Init rate t s).curLine = 0 := rfl

/-- C10 (amended): the scanline invariant 0 <= counter < primary framebuffer
height holds after Init and is preserved by every advance call made while
the stored height is positive; register reads never mutate state.  It is not
preserved by arbitrary register writes: a write can store a height at or
below the counter. -/
theorem c10_line_invariant :
    (∀ (rate t : Nat) (s : GPUState), lineInvariant (Init rate t s)) ∧
    (∀ (s : GPUState) (t : Nat) (r : Bool),
      lineInvariant s → 0 < s.regs fbTopHeightIdx → lineInvariant (update s t r).fst) := by
  constructor
  · intro rate t s
    show (Init rate t s).curLine < (Init rate t s).regs fbTopHeightIdx
    rw [init_height, init_curLine]
    omega
  · intro s t r hinv hpos
    cases r
    · rw [update_false_def]
      obtain ⟨hf1, _, _, hf4⟩ := frameStep_fields s t
      show (frameStep s t).fst.curLine < (frameStep s t).fst.regs fbTopHeightIdx
      rw [hf1, hf4]
      exact hinv
    · rw [update_true_def]
      obtain ⟨hf1, _, _, hf4⟩ := frameStep_fields s t
      have hreg : (lineStep (frameStep s t).fst t).fst.regs = s.regs := by
        rw [lineStep_fst_regs, hf4]
      show lineInvariant (vblankStep (lineStep (frameStep s t).fst t).fst).fst
      unfold vblankStep lineInvariant
      split
      · show (0 : Nat) < (lineStep (frameStep s t).fst t).fst.regs fbTopHeightIdx
        rw [hreg]
        exact hpos
      · next hlt =>
        show (lineStep (frameStep s t).fst t).fst.curLine
            < (lineStep (frameStep s t).fst t).fst.regs fbTopHeightIdx
        rw [hreg] at hlt ⊢
        omega

theorem c10_line_invariant_witness :
    lineInvariant (Init 60 0 zeroState) ∧
    (lineInvariant (Init 60 0 zeroState) ∧ 0 < (Init 60 0 zeroState).regs fbTopHeightIdx ∧
      lineInvariant (update (Init 60 0 zeroState) 5 true).fst) :=
  ⟨c10_line_invariant.left 60 0 zeroState,
   by decide, by decide,
   c10_line_invariant.right (Init 60 0 zeroState) 5 true (by decide) (by decide)⟩

/-- C10 counterexample: the state reached by Init followed by a register
write of 0 to the primary framebuffer height register violates the
invariant, so the invariant does not hold after every operation on every
reachable state. -/
theorem c10_invariant_broken_by_height_write :
    ¬ lineInvariant (Write (Init 60 0 zeroState) (regBase + 4 * fbTopHeightIdx) 32 0).fst := by
  decide

/-! ### Claim C1: RGBA8-to-RGB8 display transfer -/

lemma rowcol_inj (ow x x2 u v : Nat) (hx : x < ow) (hx2 : x2 < ow)
    (h : x + u * ow = x2 + v * ow) : x = x2 ∧ u = v := by
  have how : 0 < ow := lt_of_le_of_lt (Nat.zero_le x) hx
  have h1 : (x + u * ow) / ow = u := by
    rw [Nat.add_mul_div_right x u how, Nat.div_eq_of_lt hx]
    omega
  have h2 : (x2 + v * ow) / ow = v := by
    rw [Nat.add_mul_div_right x2 v how, Nat.div_eq_of_lt hx2]
    omega
  have huv : u = v := by rw [← h1, h, h2]
  subst huv
  exact ⟨by omega, rfl⟩

/-- Two destination byte positions of the transfer coincide only for the same
column, row and byte offset. -/
lemma dst_byte_inj (dstA ow x x2 y y2 j j2 : Nat) (hx : x < ow) (hx2 : x2 < ow)
    (hj : j < 3) (hj2 : j2 < 3)
    (h : dstA + x * 3 + y * ow * 3 + j = dstA + x2 * 3 + y2 * ow * 3 + j2) :
    x = x2 ∧ y = y2 ∧ j = j2 := by
  have hj12 : j = j2 := by omega
  have hxy : x + y * ow = x2 + y2 * ow := by omega
  obtain ⟨ha, hb⟩ := rowcol_inj ow x x2 y y2 hx hx2 hxy
  exact ⟨ha, hb, hj12⟩

lemma transferPixel_mem_good (c : TConf) (x y : Nat) (acc : TAcc)
    (hin : c.infmt = pfRGBA8) (hout : c.outfmt = pfRGB8) (b : Nat) :
    (transferPixel c x y acc).mem b =
      if b = c.dstA + x * 3 + y * c.ow * 3 then
        acc.mem (c.srcA + x * 4 + y * c.iw * 4)
      else if b = c.dstA + x * 3 + y * c.ow * 3 + 1 then
        acc.mem (c.srcA + x * 4 + y * c.iw * 4 + 1)
      else if b = c.dstA + x * 3 + y * c.ow * 3 + 2 then
        acc.mem (c.srcA + x * 4 + y * c.iw * 4 + 2)
      else acc.mem b := by
  unfold transferPixel
  dsimp only
  rw [if_pos hout]
  simp only [hin, writeByte]
  norm_num
  split_ifs <;> first | rfl | omega

lemma transferCols_untouched (c : TConf) (y : Nat)
    (hin : c.infmt = pfRGBA8) (hout : c.outfmt = pfRGB8) :
    ∀ (n : Nat) (acc : TAcc) (b : Nat),
      (∀ x j, x < n → j < 3 → b ≠ c.dstA + x * 3 + y * c.ow * 3 + j) →
      (transferCols c y n acc).mem b = acc.mem b := by
  intro n
  induction n with
  | zero => intro acc b _; rfl
  | succ n ih =>
    intro acc b hb
    show (transferPixel c n y (transferCols c y n acc)).mem b = acc.mem b
    rw [transferPixel_mem_good c n y _ hin hout]
    have h0 : b ≠ c.dstA + n * 3 + y * c.ow * 3 := by
      have := hb n 0 (by omega) (by omega)
      omega
    have h1 : b ≠ c.dstA + n * 3 + y * c.ow * 3 + 1 := hb n 1 (by omega) (by omega)
    have h2 : b ≠ c.dstA + n * 3 + y * c.ow * 3 + 2 := hb n 2 (by omega) (by omega)
    rw [if_neg h0, if_neg h1, if_neg h2]
    exact ih acc b (fun x j hx hj => hb x j (by omega) hj)

lemma transferCols_written (c : TConf) (y : Nat)
    (hin : c.infmt = pfRGBA8) (hout : c.outfmt = pfRGB8) :
    ∀ (n : Nat) (acc : TAcc),
      (∀ x1 j1 x2 j2, x1 < n → j1 < 3 → x2 < n → j2 < 3 →
        c.srcA + x1 * 4 + y * c.iw * 4 + j1 ≠ c.dstA + x2 * 3 + y * c.ow * 3 + j2) →
      ∀ x j, x < n → j < 3 →
      (transferCols c y n acc).mem (c.dstA + x * 3 + y * c.ow * 3 + j)
        = acc.mem (c.srcA + x * 4 + y * c.iw * 4 + j) := by
  intro n
  induction n with
  | zero => intro acc _ x j hx _; omega
  | succ n ih =>
    intro acc hs x j hx hj
    show (transferPixel c n y (transferCols c y n acc)).mem _ = _
    rw [transferPixel_mem_good c n y _ hin hout]
    by_cases hxn : x = n
    · rw [hxn]
      have hunt : ∀ j1, j1 < 3 →
          (transferCols c y n acc).mem (c.srcA + n * 4 + y * c.iw * 4 + j1)
            = acc.mem (c.srcA + n * 4 + y * c.iw * 4 + j1) := by
        intro j1 hj1
        exact transferCols_untouched c y hin hout n acc _
          (fun x2 j2 hx2 hj2 => hs n j1 x2 j2 (by omega) hj1 (by omega) hj2)
      rcases (by omega : j = 0 ∨ j = 1 ∨ j = 2) with hj0 | hj0 | hj0 <;> subst hj0
      · rw [if_pos (by omega)]
        rw [show (transferCols c y n acc).mem (c.srcA + n * 4 + y * c.iw * 4)
              = acc.mem (c.srcA + n * 4 + y * c.iw * 4) from hunt 0 (by omega)]
        rw [show c.srcA + n * 4 + y * c.iw * 4 + 0 = c.srcA + n * 4 + y * c.iw * 4 from
          by omega]
      · rw [if_neg (by omega), if_pos rfl]
        exact hunt 1 (by omega)
      · rw [if_neg (by omega), if_neg (by omega), if_pos rfl]
        exact hunt 2 (by omega)
    · have hxlt : x < n := by omega
      have hne0 : c.dstA + x * 3 + y * c.ow * 3 + j ≠ c.dstA + n * 3 + y * c.ow * 3 := by
        intro he
        exact hxn (by omega)
      have hne1 : c.dstA + x * 3 + y * c.ow * 3 + j
          ≠ c.dstA + n * 3 + y * c.ow * 3 + 1 := by
        intro he
        exact hxn (by omega)
      have hne2 : c.dstA + x * 3 + y * c.ow * 3 + j
          ≠ c.dstA + n * 3 + y * c.ow * 3 + 2 := by
        intro he
        exact hxn (by omega)
      rw [if_neg hne0, if_neg hne1, if_neg hne2]
      exact ih acc
        (fun x1 j1 x2 j2 h1 h2 h3 h4 => hs x1 j1 x2 j2 (by omega) h2 (by omega) h4)
        x j hxlt hj

lemma transferRows_untouched (c : TConf)
    (hin : c.infmt = pfRGBA8) (hout : c.outfmt = pfRGB8) :
    ∀ (n : Nat) (acc : TAcc) (b : Nat),
      (∀ y x j, y < n → x < c.ow → j < 3 → b ≠ c.dstA + x * 3 + y * c.ow * 3 + j) →
      (transferRows c n acc).mem b = acc.mem b := by
  intro n
  induction n with
  | zero => intro acc b _; rfl
  | succ n ih =>
    intro acc b hb
    show (transferCols c n c.ow (transferRows c n acc)).mem b = acc.mem b
    rw [transferCols_untouched c n hin hout c.ow _ b
      (fun x j hx hj => hb n x j (by omega) hx hj)]
    exact ih acc b (fun y x j hy hx hj => hb y x j (by omega) hx hj)

lemma transferRows_written (c : TConf)
    (hin : c.infmt = pfRGBA8) (hout : c.outfmt = pfRGB8) :
    ∀ (n : Nat) (acc : TAcc),
      (∀ y1 x1 j1 y2 x2 j2, y1 < n → x1 < c.ow → j1 < 3 →
          y2 < n → x2 < c.ow → j2 < 3 →
        c.srcA + x1 * 4 + y1 * c.iw * 4 + j1
          ≠ c.dstA + x2 * 3 + y2 * c.ow * 3 + j2) →
      ∀ y x j, y < n → x < c.ow → j < 3 →
      (transferRows c n acc).mem (c.dstA + x * 3 + y * c.ow * 3 + j)
        = acc.mem (c.srcA + x * 4 + y * c.iw * 4 + j) := by
  intro n
  induction n with
  | zero => intro acc _ y x j hy _ _; omega
  | succ n ih =>
    intro acc hs y x j hy hx hj
    show (transferCols c n c.ow (transferRows c n acc)).mem _ = _
    by_cases hyn : y = n
    · rw [hyn]
      rw [transferCols_written c n hin hout c.ow (transferRows c n acc)
        (fun x1 j1 x2 j2 h1 h2 h3 h4 =>
          hs n x1 j1 n x2 j2 (by omega) h1 h2 (by omega) h3 h4)
        x j hx hj]
      exact transferRows_untouched c hin hout n acc _
        (fun y2 x2 j2 hy2 hx2 hj2 =>
          hs n x j y2 x2 j2 (by omega) hx hj (by omega) hx2 hj2)
    · have hylt : y < n := by omega
      rw [transferCols_untouched c n hin hout c.ow (transferRows c n acc) _
        (fun x2 j2 hx2 hj2 => by
          intro he
          obtain ⟨_, hyy, _⟩ := dst_byte_inj c.dstA c.ow x x2 y n j j2 hx hx2 hj hj2 he
          exact hyn hyy)]
      exact ih acc
        (fun y1 x1 j1 y2 x2 j2 h1 h2 h3 h4 h5 h6 =>
          hs y1 x1 j1 y2 x2 j2 (by omega) h2 h3 (by omega) h5 h6)
        y x j hylt hx hj

/-- C1: a display transfer triggered with input format RGBA8 and output
format RGB8 stores, for every output row y and column x, the three source
bytes at offsets 0, 1, 2 of the source pixel at byte offset x*4 +
y*input_width*4 into the destination bytes at offset x*3 + y*output_width*3
(byte0 to the R slot, byte1 to the G slot, byte2 to the B slot; the fourth
source byte is discarded), provided the source and destination regions do
not overlap. -/
theorem c1_display_transfer_rgba8_rgb8 (s : GPUState) (data x y k : Nat)
    (hin : s.regs dtInFmtIdx = pfRGBA8)
    (hout : s.regs dtOutFmtIdx = pfRGB8)
    (htrig : data % 2 = 1)
    (hy : y < s.regs dtOutHeightIdx)
    (hx : x < s.regs dtOutWidthIdx)
    (hk : k < 3)
    (hsep : ∀ y1 x1 j1 y2 x2 j2,
      y1 < s.regs dtOutHeightIdx → x1 < s.regs dtOutWidthIdx → j1 < 3 →
      y2 < s.regs dtOutHeightIdx → x2 < s.regs dtOutWidthIdx → j2 < 3 →
      s.regs dtInAddrIdx + x1 * 4 + y1 * s.regs dtInWidthIdx * 4 + j1
        ≠ s.regs dtOutAddrIdx + x2 * 3 + y2 * s.regs dtOutWidthIdx * 3 + j2) :
    (Write s (regBase + 4 * dtTriggerIdx) 32 data).fst.mem
        (s.regs dtOutAddrIdx + x * 3 + y * s.regs dtOutWidthIdx * 3 + k)
      = s.mem (s.regs dtInAddrIdx + x * 4 + y * s.regs dtInWidthIdx * 4 + k) := by
  rw [write_dt_trigger_eq s data htrig]
  show (runTransfer (setReg s dtTriggerIdx (data % 4294967296))).fst.mem _ = _
  unfold runTransfer
  dsimp only
  rw [dtConf_setReg_trigger, setReg_mem]
  exact transferRows_written (dtConf s) hin hout (dtConf s).oh
    { mem := s.mem, srcErrs := 0, dstErrs := 0 } hsep y x k hy hx hk

/-- Concrete one-pixel transfer state exercising the C1 theorem. -/
def c1WitnessState : GPUState :=
  { zeroState with
    regs := fun i =>
      if i = dtOutAddrIdx then 100 else
      if i = dtInWidthIdx then 1 else
      if i = dtOutWidthIdx then 1 else
      if i = dtOutHeightIdx then 1 else
      if i = dtOutFmtIdx then 1 else 0
    mem := fun a => a + 10 }

theorem c1_display_transfer_rgba8_rgb8_witness :
    c1WitnessState.regs dtInFmtIdx = pfRGBA8 ∧
    c1WitnessState.regs dtOutFmtIdx = pfRGB8 ∧
    (1 : Nat) % 2 = 1 ∧
    0 < c1WitnessState.regs dtOutHeightIdx ∧
    0 < c1WitnessState.regs dtOutWidthIdx ∧
    (0 : Nat) < 3 ∧
    (∀ y1 x1 j1 y2 x2 j2,
      y1 < c1WitnessState.regs dtOutHeightIdx → x1 < c1WitnessState.regs dtOutWidthIdx →
      j1 < 3 →
      y2 < c1WitnessState.regs dtOutHeightIdx → x2 < c1WitnessState.regs dtOutWidthIdx →
      j2 < 3 →
      c1WitnessState.regs dtInAddrIdx + x1 * 4 + y1 * c1WitnessState.regs dtInWidthIdx * 4 + j1
        ≠ c1WitnessState.regs dtOutAddrIdx + x2 * 3
            + y2 * c1WitnessState.regs dtOutWidthIdx * 3 + j2) ∧
    (Write c1WitnessState (regBase + 4 * dtTriggerIdx) 32 1).fst.mem
        (c1WitnessState.regs dtOutAddrIdx + 0 * 3
          + 0 * c1WitnessState.regs dtOutWidthIdx * 3 + 0)
      = c1WitnessState.mem (c1WitnessState.regs dtInAddrIdx + 0 * 4
          + 0 * c1WitnessState.regs dtInWidthIdx * 4 + 0) := by
  have hsep : ∀ y1 x1 j1 y2 x2 j2,
      y1 < c1WitnessState.regs dtOutHeightIdx → x1 < c1WitnessState.regs dtOutWidthIdx →
      j1 < 3 →
      y2 < c1WitnessState.regs dtOutHeightIdx → x2 < c1WitnessState.regs dtOutWidthIdx →
      j2 < 3 →
      c1WitnessState.regs dtInAddrIdx + x1 * 4 + y1 * c1WitnessState.regs dtInWidthIdx * 4 + j1
        ≠ c1WitnessState.regs dtOutAddrIdx + x2 * 3
            + y2 * c1WitnessState.regs dtOutWidthIdx * 3 + j2 := by
    intro y1 x1 j1 y2 x2 j2 h1 h2 h3 h4 h5 h6
    revert h1 h2 h3 h4 h5 h6
    show y1 < 1 → x1 < 1 → j1 < 3 → y2 < 1 → x2 < 1 → j2 < 3 →
      0 + x1 * 4 + y1 * 1 * 4 + j1 ≠ 100 + x2 * 3 + y2 * 1 * 3 + j2
    intro h1 h2 h3 h4 h5 h6
    omega
  exact ⟨by decide, by decide, by decide, by decide, by decide, by decide, hsep,
    c1_display_transfer_rgba8_rgb8 c1WitnessState 1 0 0 0 (by decide) (by decide)
      (by decide) (by decide) (by decide) (by decide) hsep⟩

end GPUModel
